import Mathlib

/-
Verification of the gearhulk worker runtime and command-line front-end.

Shallow embedding conventions:
* Go byte slices and Go strings built from wire bytes are `List Nat`
  (each element one byte); Go strings manipulated with the `strings`
  library in the cmd package are Lean `String`.
* Machine integers are `Nat` with explicit `% 2 ^ 32` where overflow
  matters.
* Fallible Go functions return their error value explicitly, mirroring
  Go's multiple return values.
-/

namespace Gearhulk

/-! ## pkg/runtime constants

Modelled from the spec: `pkg/runtime` is not among the source files; the
spec (§3, §4.A) fixes the 12-byte minimum packet length and the packet
type inventory of the Gearman protocol, whose numeric codes are used
here. -/

/-- Modelled from the spec: minimum valid packet length (12 bytes). -/
def MinPacketLength : Nat := 12

/-- Modelled from the spec: Gearman packet-type code for CAN_DO. -/
def PT_CanDo : Nat := 1

/-- Modelled from the spec: Gearman packet-type code for CANT_DO. -/
def PT_CantDo : Nat := 2

/-- Modelled from the spec: Gearman packet-type code for PRE_SLEEP. -/
def PT_PreSleep : Nat := 4

/-- Modelled from the spec: Gearman packet-type code for NOOP. -/
def PT_Noop : Nat := 6

/-- Modelled from the spec: Gearman packet-type code for NO_JOB. -/
def PT_NoJob : Nat := 10

/-- Modelled from the spec: Gearman packet-type code for JOB_ASSIGN. -/
def PT_JobAssign : Nat := 11

/-- Modelled from the spec: Gearman packet-type code for WORK_COMPLETE. -/
def PT_WorkComplete : Nat := 13

/-- Modelled from the spec: Gearman packet-type code for WORK_FAIL. -/
def PT_WorkFail : Nat := 14

/-- Modelled from the spec: Gearman packet-type code for SET_CLIENT_ID. -/
def PT_SetClientId : Nat := 22

/-- Modelled from the spec: Gearman packet-type code for CAN_DO_TIMEOUT. -/
def PT_CanDoTimeout : Nat := 23

/-- Modelled from the spec: Gearman packet-type code for WORK_EXCEPTION. -/
def PT_WorkException : Nat := 25

/-- Modelled from the spec: Gearman packet-type code for JOB_ASSIGN_UNIQ. -/
def PT_JobAssignUniq : Nat := 31

/-- Modelled from the spec: the last packet-type code of the protocol
inventory (SUBMIT_JOB_EPOCH). -/
def PT_SubmitJobEpoch : Nat := 36

/-- Modelled from the spec: `rt.NewPT` of `pkg/runtime` (not among the
source files) converts a 32-bit code to a packet type, yielding the code
together with an error when the code is outside the protocol inventory. -/
def NewPT (t : Nat) : Nat × Option String :=
  (t, if PT_CanDo ≤ t ∧ t ≤ PT_SubmitJobEpoch then none
      else some "Invalid packet type")

/-! ## Big-endian 32-bit integers (`encoding/binary`) -/

/-- `binary.BigEndian.PutUint32`: the four big-endian bytes of `n % 2 ^ 32`. -/
def putUint32 (n : Nat) : List Nat :=
  [n / 2 ^ 24 % 256, n / 2 ^ 16 % 256, n / 2 ^ 8 % 256, n % 256]

/-- `binary.BigEndian.Uint32`: read four big-endian bytes (the Go
original panics on fewer than four bytes; every call site below has
already checked the length). -/
def beUint32 : List Nat → Nat
  | a :: b :: c :: d :: _ => ((a * 256 + b) * 256 + c) * 256 + d
  | _ => 0

/-! ## bytes.SplitN with the single-byte separator NUL -/

/-- Split a byte string at its first NUL byte, if any. -/
def splitOnNull : List Nat → Option (List Nat × List Nat)
  | [] => none
  | b :: rest =>
    if b = 0 then some ([], rest)
    else
      match splitOnNull rest with
      | none => none
      | some (pre, post) => some (b :: pre, post)

/-- `bytes.SplitN(s, []byte{0}, n)`: at most `n` subslices, the last one
holding the unsplit remainder. -/
def bytesSplitN (s : List Nat) : Nat → List (List Nat)
  | 0 => []
  | Nat.succ n =>
    if n = 0 then [s]
    else
      match splitOnNull s with
      | none => [s]
      | some (pre, post) => pre :: bytesSplitN post n

/-! ## Worker-side job (`inPack`) and the packet decoder -/

/-- Worker side job (`worker/inpack.go`); zero values as Go defaults. -/
structure inPack where
  dataType : Nat := 0
  data : List Nat := []
  handle : List Nat := []
  uniqueId : List Nat := []
  fn : List Nat := []
  deriving Repr, DecidableEq

/-- The three return values of Go's `decodeInPack`. -/
structure decodeRet where
  inpack : Option inPack
  l : Nat
  err : Option String
  deriving Repr, DecidableEq

/-- `decodeInPack` (worker/inpack.go): decode one job packet from a byte
slice, returning the packet, the number of consumed bytes and an error. -/
def decodeInPack (data : List Nat) : decodeRet :=
  if data.length < MinPacketLength then ⟨none, 0, some "Invalid data"⟩
  else
    let dl := beUint32 (data.drop 8)
    if data.length < dl + MinPacketLength then ⟨none, 0, some "Not enough data"⟩
    else
      let dt := (data.drop MinPacketLength).take dl
      if dt.length ≠ dl then ⟨none, 0, some "Invalid data"⟩
      else
        let pt := NewPT (beUint32 (data.drop 4))
        match pt.2 with
        | some e => ⟨some { dataType := pt.1 }, 0, some e⟩
        | none =>
          let ip : inPack :=
            if pt.1 = PT_JobAssign then
              match bytesSplitN dt 3 with
              | [h, f, d] => { dataType := pt.1, handle := h, fn := f, data := d }
              | _ => { dataType := pt.1 }
            else if pt.1 = PT_JobAssignUniq then
              match bytesSplitN dt 4 with
              | [h, f, u, d] =>
                { dataType := pt.1, handle := h, fn := f, uniqueId := u, data := d }
              | _ => { dataType := pt.1 }
            else { dataType := pt.1, data := dt }
          ⟨some ip, dl + MinPacketLength, none⟩

/-- A full wire packet: 4 magic bytes, packet type, payload length,
payload (spec §3). -/
def mkPacket (ty : Nat) (payload : List Nat) : List Nat :=
  [0, 82, 69, 83] ++ putUint32 ty ++ putUint32 payload.length ++ payload

/-! ## Worker-side outgoing packet and function registration -/

/-- Worker-side outgoing packet (`worker/outpack.go`): type, job handle
and payload; the agent later serializes it onto the wire. -/
structure outPack where
  dataType : Nat := 0
  handle : List Nat := []
  data : List Nat := []
  deriving Repr, DecidableEq

/-- Go errors that occur in the worker package.  User-function errors
are abstracted as `userErr n`, distinct from every sentinel. -/
inductive goErr where
  | errNoneAgents
  | errNoneFuncs
  | errTimeOut
  | errUnknown
  | errConnect
  | funcAlreadyExists (fn : List Nat)
  | funcNotExist (fn : List Nat)
  | userErr (n : Nat)
  deriving Repr, DecidableEq

/-- The worker's function table `jobFuncs` (`map[string]*jobFunc`),
modelled as an association list name ↦ timeout; the Go callback itself
is carried separately where needed.  Go map iteration order is not
specified, the list order stands for one such order. -/
def jobFuncs := List (List Nat × Nat)

/-- `worker.funcs[funcname]` lookup. -/
def lookupFunc : List (List Nat × Nat) → List Nat → Option Nat
  | [], _ => none
  | (g, t) :: rest, f => if g = f then some t else lookupFunc rest f

/-- `prepFuncOutpack` (worker/worker.go): timeout 0 gives CAN_DO with the
bare function name; a positive timeout gives CAN_DO_TIMEOUT whose
payload is the name, a NUL byte, and the 4-byte big-endian timeout
(the Go original fills an `l + 5`-byte buffer in that layout). -/
def prepFuncOutpack (funcname : List Nat) (timeout : Nat) : outPack :=
  if timeout = 0 then
    { dataType := PT_CanDo, data := funcname }
  else
    { dataType := PT_CanDoTimeout, data := funcname ++ 0 :: putUint32 timeout }

/-- `Worker.reRegisterFuncsForAgent` (worker/worker.go): the packets
written to one agent when the function table is re-sent on reconnect. -/
def reRegisterFuncsForAgent (funcs : List (List Nat × Nat)) : List outPack :=
  funcs.map (fun p => prepFuncOutpack p.1 p.2)

/-! ## Job execution (`Worker.exec` and `execTimeout`) -/

/-- A recovered panic value: Go distinguishes a value satisfying the
`error` interface from any other value. -/
inductive panicVal where
  | errVal (e : goErr)
  | nonErr
  deriving Repr, DecidableEq

/-- One run of the user-supplied job function: it either returns
`(data, err)` or panics. -/
inductive fnOutcome where
  | ret (data : List Nat) (err : Option goErr)
  | panics (v : panicVal)
  deriving Repr, DecidableEq

/-- Inner result record of worker/worker.go. -/
structure result where
  data : List Nat := []
  err : Option goErr := none
  deriving Repr, DecidableEq

/-- `recover()` conversion in `Worker.exec`'s deferred function: an
error value is kept, any other panic value becomes `ErrUnknown`. -/
def recoverErr : panicVal → goErr
  | .errVal e => e
  | .nonErr => .errUnknown

/-- `execTimeout` (worker/worker.go): race the user function against a
timer.  `withinTime` abstracts real time: whether the function's send on
the result channel happens before the timer fires.  A panicking user
function is recovered inside its goroutine and never sends, so the
select can only take the timer branch. -/
def execTimeout (outcome : fnOutcome) (withinTime : Bool) : result :=
  match outcome, withinTime with
  | .ret d e, true => { data := d, err := e }
  | .ret _ _, false => { err := some .errTimeOut }
  | .panics _, _ => { err := some .errTimeOut }

/-- The observable effects of one `Worker.exec` call: the packet written
to the job's agent, if any, and the error `exec` returns (which
`handleInPack` passes to the worker's `ErrorHandler`). -/
structure execRet where
  sent : Option outPack
  ret : Option goErr
  deriving Repr, DecidableEq

/-- `Worker.exec` (worker/worker.go): run the user function for the job
`⟨fn, handle⟩`, with `outcome` the user function's behaviour and
`withinTime` the timer race (meaningful only when the function has a
positive timeout).  A panic out of the direct (timeout 0) call reaches
the deferred `recover`, which turns it into `exec`'s returned error;
no packet is written in that case. -/
def Worker.exec (running shuttingDown : Bool) (funcs : List (List Nat × Nat))
    (fn handle : List Nat) (outcome : fnOutcome) (withinTime : Bool) : execRet :=
  if shuttingDown then ⟨none, none⟩
  else
    match lookupFunc funcs fn with
    | none => ⟨none, some (.funcNotExist fn)⟩
    | some tmo =>
      match
        (if tmo = 0 then
          match outcome with
          | .ret d e => Except.ok ({ data := d, err := e } : result)
          | .panics v => Except.error v
        else Except.ok (execTimeout outcome withinTime)) with
      | .error v => ⟨none, some (recoverErr v)⟩
      | .ok r =>
        if running then
          if r.err = none then
            ⟨some { dataType := PT_WorkComplete, handle := handle, data := r.data }, none⟩
          else if r.data = [] then
            ⟨some { dataType := PT_WorkFail, handle := handle, data := r.data }, r.err⟩
          else
            ⟨some { dataType := PT_WorkException, handle := handle, data := r.data }, r.err⟩
        else ⟨none, none⟩

/-! ## Worker registration API (`AddFunc`, `RemoveFunc`, `Ready`) -/

/-- The worker-level mutable state the registration API touches. -/
structure WorkerSt where
  agentCount : Nat
  funcs : List (List Nat × Nat)
  running : Bool
  onceDone : Bool
  ready : Bool
  deriving Repr, DecidableEq

/-- Result of a registration call: the new state, the packets broadcast
to every agent during the call, and the returned error. -/
structure regRet where
  st : WorkerSt
  sent : List outPack
  err : Option goErr
  deriving Repr, DecidableEq

/-- `Worker.AddFunc` (worker/worker.go): reject an already-registered
name; otherwise extend the table and, when the worker is running,
broadcast the registration packet. -/
def Worker.AddFunc (st : WorkerSt) (funcname : List Nat) (timeout : Nat) : regRet :=
  match lookupFunc st.funcs funcname with
  | some _ => ⟨st, [], some (.funcAlreadyExists funcname)⟩
  | none =>
    let st := { st with funcs := st.funcs ++ [(funcname, timeout)] }
    ⟨st, if st.running then [prepFuncOutpack funcname timeout] else [], none⟩

/-- `Worker.RemoveFunc` (worker/worker.go): reject an unknown name;
otherwise delete it and, when the worker is running, broadcast CANT_DO. -/
def Worker.RemoveFunc (st : WorkerSt) (funcname : List Nat) : regRet :=
  match lookupFunc st.funcs funcname with
  | none => ⟨st, [], some (.funcNotExist funcname)⟩
  | some _ =>
    let st := { st with funcs := st.funcs.filter (fun p => p.1 ≠ funcname) }
    ⟨st, if st.running then [{ dataType := PT_CantDo, data := funcname }] else [], none⟩

/-- `Worker.Ready` (worker/worker.go): error on an empty agent list or
function table, connect every agent (`connectOk` abstracts the network),
then under `once.Do` broadcast the whole function table — the `once`
body runs only if no earlier `Ready` reached it. -/
def Worker.Ready (connectOk : Bool) (st : WorkerSt) : regRet :=
  if st.agentCount = 0 then ⟨st, [], some .errNoneAgents⟩
  else if st.funcs = [] then ⟨st, [], some .errNoneFuncs⟩
  else if !connectOk then ⟨st, [], some .errConnect⟩
  else if st.onceDone then ⟨{ st with ready := true }, [], none⟩
  else
    ⟨{ st with ready := true, onceDone := true },
      st.funcs.map (fun p => prepFuncOutpack p.1 p.2), none⟩

/-- The registration packets broadcast by each call of a sequence of
`Ready` calls (the Boolean list gives each call's connect success). -/
def readySeq (st : WorkerSt) : List Bool → List (List outPack)
  | [] => []
  | c :: cs =>
    let r := Worker.Ready c st
    r.sent :: readySeq r.st cs

/-! ## cmd worker: persistent-subprocess job handler

Go strings handled by the CLI are modelled as `List Char`, with the
`strings` library functions re-implemented by structural recursion so
that concrete runs evaluate. -/

/-- `unicode.IsSpace` on the ASCII range (the bytes the CLI handles;
higher White_Space code points are outside the byte-oriented payloads
modelled here). -/
def isGoSpace (c : Char) : Bool :=
  c = ' ' || c = '\t' || c = '\n' || c = Char.ofNat 11 || c = Char.ofNat 12 || c = '\r'

/-- `strings.TrimSpace`: strip leading and trailing whitespace. -/
def goTrimSpace (s : List Char) : List Char :=
  ((s.dropWhile isGoSpace).reverse.dropWhile isGoSpace).reverse

/-- `strings.HasSuffix`. -/
def goHasSuffix (s suffix : List Char) : Bool :=
  suffix.isSuffixOf s

/-- Cut a string at the leftmost occurrence of the non-empty separator
`sep`, if any. -/
def listSplitFirst (sep : List Char) : List Char → Option (List Char × List Char)
  | [] => none
  | c :: cs =>
    if sep.isPrefixOf (c :: cs) then some ([], (c :: cs).drop sep.length)
    else
      match listSplitFirst sep cs with
      | none => none
      | some (pre, post) => some (c :: pre, post)

/-- `strings.Split` for a non-empty separator, written with a fuel
argument (any fuel above the number of separator occurrences, e.g.
`length + 1`, is enough) to keep the recursion structural. -/
def goSplitAux (sep : List Char) : Nat → List Char → List (List Char)
  | 0, s => [s]
  | fuel + 1, s =>
    match listSplitFirst sep s with
    | none => [s]
    | some (pre, post) => pre :: goSplitAux sep fuel post

/-- `strings.Split(s, sep)` for the non-empty separators the CLI uses
(an empty separator never reaches a split in cmd: the scanner's split
function treats it as no delimiter and yields the whole input). -/
def goSplit (s sep : List Char) : List (List Char) :=
  if sep = [] then [s] else goSplitAux sep (s.length + 1) s

/-- The read loop of `processJobWithPersistentSubprocess`: one
`ReadString('\n')` (newline stripped) per non-empty entry of
`inputLines`, consuming the subprocess's stdout lines in order; `none`
when the stream ends early (the Go read error path). -/
def readOutputLines : List (List Char) → List (List Char) → Option (List (List Char))
  | [], _ => some []
  | l :: ls, out =>
    if l = [] then readOutputLines ls out
    else
      match out with
      | [] => none
      | o :: os => (readOutputLines ls os).map (o :: ·)

/-- The two observable effects of `processJobWithPersistentSubprocess`. -/
structure persistRet where
  written : List Char
  result : Option (List Char)
  deriving Repr, DecidableEq

/-- `strings.Join` with the given separator. -/
def goJoin (sep : List Char) : List (List Char) → List Char
  | [] => []
  | [x] => x
  | x :: xs => x ++ sep ++ goJoin sep xs

/-- `processJobWithPersistentSubprocess` (cmd/worker.go), for a live
subprocess whose pending stdout is the line list `stdout`: write the
payload plus a newline when missing, read one line per non-empty line
of `strings.TrimSpace(data)` split on newline, and join the lines read
with newlines. -/
def processJobWithPersistentSubprocess (data : List Char)
    (stdout : List (List Char)) : persistRet :=
  { written := data ++ (if goHasSuffix data ['\n'] then [] else ['\n'])
    result :=
      (readOutputLines (goSplit (goTrimSpace data) ['\n']) stdout).map
        (goJoin ['\n']) }

/-- Follows the claim's words (C8 as stated): one stdout line is read
per non-empty line of the payload itself, and the lines read are joined
with newlines. -/
def claimPersistentResult (data : List Char) (stdout : List (List Char)) :
    Option (List Char) :=
  if stdout.length < ((goSplit data ['\n']).filter (· ≠ [])).length then none
  else some (goJoin ['\n']
    (stdout.take ((goSplit data ['\n']).filter (· ≠ [])).length))

/-- Follows the amended claim's words: as `claimPersistentResult`, but
counting the non-empty lines of the whitespace-trimmed payload. -/
def claimPersistentResultTrimmed (data : List Char) (stdout : List (List Char)) :
    Option (List Char) :=
  if stdout.length < ((goSplit (goTrimSpace data) ['\n']).filter (· ≠ [])).length then
    none
  else some (goJoin ['\n']
    (stdout.take ((goSplit (goTrimSpace data) ['\n']).filter (· ≠ [])).length))

/-! ## cmd client: stdin tokenisation and the submission loop -/

/-- `dropCR` of `bufio.ScanLines`: strip one trailing carriage return. -/
def dropCR (s : List Char) : List Char :=
  if goHasSuffix s ['\r'] then s.dropLast else s

/-- The token stream `bufio.Scanner` yields in `runClient`: with the
default `"\n"` delimiter, `bufio.ScanLines` (split at newlines, a final
token without trailing newline, no empty token after a trailing
newline, carriage returns stripped); with a custom delimiter, the split
function of cmd/client.go (leftmost delimiter match, the remainder as
final token at EOF, no token for an empty remainder). -/
def scanTokens (input delim : List Char) : List (List Char) :=
  let raw := goSplit input delim
  let raw := if raw.getLast? = some [] then raw.dropLast else raw
  if delim = ['\n'] then raw.map dropCR else raw

/-- The outcome of one submitted job as the client observes it:
the first matching `WORK_*` response, a wait timeout, or a failure of
`client.Do` itself. -/
inductive jobOutcome where
  | complete (data : List Char)
  | fail
  | exception (data : List Char)
  | timedOut
  | submitErr
  deriving Repr, DecidableEq

/-- Observable effects of `runClient`: payloads submitted as jobs,
stdout lines, stderr lines, and whether the run aborted with an error. -/
structure clientRet where
  submitted : List (List Char)
  stdout : List (List Char)
  stderr : List (List Char)
  failed : Bool
  deriving Repr, DecidableEq

/-- Stderr text for a WORK_FAIL response. -/
def failMsg : List Char := "Job error: job failed".data

/-- Stderr prefix for a WORK_EXCEPTION response. -/
def exceptionMsgPre : List Char := "Job error: job exception: ".data

/-- Stderr prefix for a result-wait timeout. -/
def timeoutMsgPre : List Char := "Job timeout after ".data

/-- The per-token loop of `runClient` (cmd/client.go): skip empty
tokens; otherwise submit a job (aborting the whole run if `Do` fails),
then print the result line to stdout on WORK_COMPLETE and an error
message to stderr on failure, exception, or wait timeout.  `outs i` is
the outcome of the i-th submission. -/
def runClientLoop (outs : Nat → jobOutcome) (timeoutStr : List Char) :
    List (List Char) → Nat → clientRet
  | [], _ => ⟨[], [], [], false⟩
  | t :: ts, i =>
    if t = [] then runClientLoop outs timeoutStr ts i
    else
      match outs i with
      | .submitErr => ⟨[], [], [], true⟩
      | .complete d =>
        let rest := runClientLoop outs timeoutStr ts (i + 1)
        ⟨t :: rest.submitted, d :: rest.stdout, rest.stderr, rest.failed⟩
      | .fail =>
        let rest := runClientLoop outs timeoutStr ts (i + 1)
        ⟨t :: rest.submitted, rest.stdout, failMsg :: rest.stderr, rest.failed⟩
      | .exception d =>
        let rest := runClientLoop outs timeoutStr ts (i + 1)
        ⟨t :: rest.submitted, rest.stdout,
          (exceptionMsgPre ++ d) :: rest.stderr, rest.failed⟩
      | .timedOut =>
        let rest := runClientLoop outs timeoutStr ts (i + 1)
        ⟨t :: rest.submitted, rest.stdout,
          (timeoutMsgPre ++ timeoutStr) :: rest.stderr, rest.failed⟩

/-- `runClient` (cmd/client.go): tokenise stdin and run the loop. -/
def runClient (input delim : List Char) (outs : Nat → jobOutcome)
    (timeoutStr : List Char) : clientRet :=
  runClientLoop outs timeoutStr (scanTokens input delim) 0

/-- Follows the claim's words (C9): the stdout and stderr lines produced
by `n` consecutive submissions starting at index `i` — one stdout line
per completed job, one stderr line per failed job, in order. -/
def collectOutputs (outs : Nat → jobOutcome) (timeoutStr : List Char) :
    Nat → Nat → List (List Char) × List (List Char)
  | _, 0 => ([], [])
  | i, n + 1 =>
    let rest := collectOutputs outs timeoutStr (i + 1) n
    match outs i with
    | .complete d => (d :: rest.1, rest.2)
    | .fail => (rest.1, failMsg :: rest.2)
    | .exception d => (rest.1, (exceptionMsgPre ++ d) :: rest.2)
    | .timedOut => (rest.1, (timeoutMsgPre ++ timeoutStr) :: rest.2)
    | .submitErr => (rest.1, rest.2)

/-! ## Theorems -/

/-- Helper: once the `once` body has run, a further `Ready` call
broadcasts nothing and keeps the flag. -/
theorem Ready_after_once (c : Bool) (st : WorkerSt) (h : st.onceDone = true) :
    (Worker.Ready c st).sent = [] ∧ (Worker.Ready c st).st.onceDone = true := by
  unfold Worker.Ready
  split_ifs <;> simp_all

/-- Helper: a `Ready` call that broadcasts registrations marks the
`once` flag. -/
theorem Ready_sent_marks_once (c : Bool) (st : WorkerSt)
    (h : (Worker.Ready c st).sent ≠ []) : (Worker.Ready c st).st.onceDone = true := by
  unfold Worker.Ready at h ⊢
  split_ifs at h ⊢ <;> simp_all

/-- Helper: the broadcast count over any call sequence is 0 with the
`once` flag set, at most 1 otherwise. -/
theorem readySeq_bound (cs : List Bool) : ∀ st : WorkerSt,
    ((readySeq st cs).filter (· ≠ [])).length ≤ (if st.onceDone = true then 0 else 1) := by
  induction cs with
  | nil => intro st; simp [readySeq]
  | cons c cs ih =>
    intro st
    have h2 := ih (Worker.Ready c st).st
    by_cases hdone : st.onceDone = true
    · have h1 := Ready_after_once c st hdone
      rw [h1.2, if_pos rfl] at h2
      rw [if_pos hdone]
      simpa [readySeq, h1.1] using h2
    · by_cases hsent : (Worker.Ready c st).sent = []
      · have hle : ((readySeq (Worker.Ready c st).st cs).filter (· ≠ [])).length ≤ 1 :=
          le_trans h2 (by split <;> omega)
        rw [if_neg hdone]
        simpa [readySeq, hsent] using hle
      · have hmark := Ready_sent_marks_once c st hsent
        rw [hmark, if_pos rfl] at h2
        have h0 : ((readySeq (Worker.Ready c st).st cs).filter (· ≠ [])).length = 0 :=
          Nat.le_zero.mp h2
        rw [if_neg hdone]
        have hun : readySeq st (c :: cs) =
            (Worker.Ready c st).sent :: readySeq (Worker.Ready c st).st cs := rfl
        rw [hun, List.filter_cons_of_pos (by simpa using hsent), List.length_cons, h0]

/-- C7: on a fresh worker a successful `Ready()` call broadcasts the
whole registered function table, and across any sequence of `Ready()`
calls this initial broadcast happens at most once per worker lifetime —
a later `Ready()` call does not re-broadcast the registrations. -/
theorem worker_ready_registers_once (st : WorkerSt) (hfresh : st.onceDone = false)
    (cs : List Bool) (c : Bool) :
    ((readySeq st cs).filter (· ≠ [])).length ≤ 1
    ∧ ((Worker.Ready c st).err = none →
        (Worker.Ready c st).sent = st.funcs.map (fun p => prepFuncOutpack p.1 p.2)) := by
  constructor
  · have h := readySeq_bound cs st
    rw [hfresh] at h
    simpa using h
  · intro herr
    unfold Worker.Ready at herr ⊢
    split_ifs at herr ⊢ <;> simp_all

/-- C7 witness: a fresh single-agent worker, two successful `Ready`
calls. -/
theorem worker_ready_registers_once_witness :
    ((readySeq ⟨1, [([102], 0)], false, false, false⟩ [true, true]).filter (· ≠ [])).length ≤ 1
    ∧ ((Worker.Ready true ⟨1, [([102], 0)], false, false, false⟩).err = none →
        (Worker.Ready true ⟨1, [([102], 0)], false, false, false⟩).sent
          = [([102], 0)].map (fun p => prepFuncOutpack p.1 p.2)) :=
  worker_ready_registers_once ⟨1, [([102], 0)], false, false, false⟩ rfl [true, true] true

/-- Helper: the packet `exec` writes for a delivered user-function
result `(d, e)`, shared by the normal and the within-timeout paths. -/
theorem exec_ret_spec (funcs : List (List Nat × Nat))
    (fn handle d : List Nat) (e : Option goErr) (tmo : Nat) (withinTime : Bool)
    (hfn : lookupFunc funcs fn = some tmo)
    (hdone : tmo = 0 ∨ withinTime = true) :
    Worker.exec true false funcs fn handle (.ret d e) withinTime =
      ⟨some { dataType :=
                if e = none then PT_WorkComplete
                else if d = [] then PT_WorkFail
                else PT_WorkException,
              handle := handle, data := d },
        if e = none then none else e⟩ := by
  rcases hdone with h0 | hw
  · subst h0
    by_cases he : e = none <;> by_cases hd : d = [] <;>
      simp [Worker.exec, hfn, he, hd]
  · subst hw
    by_cases h0 : tmo = 0
    · subst h0
      by_cases he : e = none <;> by_cases hd : d = [] <;>
        simp [Worker.exec, hfn, he, hd]
    · by_cases he : e = none <;> by_cases hd : d = [] <;>
        simp [Worker.exec, hfn, h0, execTimeout, he, hd]

/-- C1: for a registered function, while the worker is running (and not
shutting down), a user function returning `(data, err)` — directly for
timeout 0, or within time for a positive timeout — makes `exec` write
exactly one packet carrying the job's handle: WORK_COMPLETE with the
result data when `err` is nil, WORK_FAIL when `err` is non-nil and the
data empty, WORK_EXCEPTION when `err` is non-nil and the data
non-empty. -/
theorem worker_exec_result_packets (funcs : List (List Nat × Nat))
    (fn handle d : List Nat) (e : Option goErr) (tmo : Nat) (withinTime : Bool)
    (hfn : lookupFunc funcs fn = some tmo)
    (hdone : tmo = 0 ∨ withinTime = true) :
    Worker.exec true false funcs fn handle (.ret d e) withinTime =
      ⟨some { dataType :=
                if e = none then PT_WorkComplete
                else if d = [] then PT_WorkFail
                else PT_WorkException,
              handle := handle, data := d },
        if e = none then none else e⟩ :=
  exec_ret_spec funcs fn handle d e tmo withinTime hfn hdone

/-- C1 witness: function `[102]`, timeout 0, user function returns data
`[5]` with nil error. -/
theorem worker_exec_result_packets_witness :
    Worker.exec true false [([102], 0)] [102] [104] (.ret [5] none) true =
      ⟨some { dataType :=
                if (none : Option goErr) = none then PT_WorkComplete
                else if ([5] : List Nat) = [] then PT_WorkFail
                else PT_WorkException,
              handle := [104], data := [5] },
        if (none : Option goErr) = none then none else none⟩ :=
  worker_exec_result_packets [([102], 0)] [102] [104] [5] none 0 true (by decide)
    (Or.inl rfl)

/-- C2: for a function registered with a positive timeout, a user
function that does not produce its result within the timeout yields the
sentinel result `ErrTimeOut` with empty data, so the running worker
emits WORK_FAIL for the job; a user function returning within the
timeout has its own result used, with the packet chosen from it as in
normal execution. -/
theorem worker_exec_timeout_workfail (funcs : List (List Nat × Nat))
    (fn handle d : List Nat) (e : Option goErr) (outcome : fnOutcome) (tmo : Nat)
    (hfn : lookupFunc funcs fn = some tmo) (hpos : 0 < tmo) :
    execTimeout outcome false = { data := [], err := some .errTimeOut }
    ∧ Worker.exec true false funcs fn handle outcome false =
        ⟨some { dataType := PT_WorkFail, handle := handle, data := [] },
          some .errTimeOut⟩
    ∧ Worker.exec true false funcs fn handle (.ret d e) true =
        ⟨some { dataType :=
                  if e = none then PT_WorkComplete
                  else if d = [] then PT_WorkFail
                  else PT_WorkException,
                handle := handle, data := d },
          if e = none then none else e⟩ := by
  have htz : ¬ tmo = 0 := by omega
  have hres : execTimeout outcome false = { data := [], err := some .errTimeOut } := by
    cases outcome <;> simp [execTimeout]
  refine ⟨hres, ?_, exec_ret_spec funcs fn handle d e tmo true hfn (Or.inr rfl)⟩
  simp [Worker.exec, hfn, htz, hres]

/-- C2 witness: timeout 3, user function would return `[5]` but misses
the deadline; and the within-time case uses the function's own result. -/
theorem worker_exec_timeout_workfail_witness :
    execTimeout (.ret [5] none) false = { data := [], err := some .errTimeOut }
    ∧ Worker.exec true false [([102], 3)] [102] [104] (.ret [5] none) false =
        ⟨some { dataType := PT_WorkFail, handle := [104], data := [] },
          some .errTimeOut⟩
    ∧ Worker.exec true false [([102], 3)] [102] [104] (.ret [5] none) true =
        ⟨some { dataType :=
                  if (none : Option goErr) = none then PT_WorkComplete
                  else if ([5] : List Nat) = [] then PT_WorkFail
                  else PT_WorkException,
                handle := [104], data := [5] },
          if (none : Option goErr) = none then none else none⟩ :=
  worker_exec_timeout_workfail [([102], 3)] [102] [104] [5] none (.ret [5] none) 3
    (by decide) (by decide)

/-- C3 counterexample: for a registered timeout-0 function whose user
function panics with a non-error value, the running worker writes no
packet at all — in particular no WORK_EXCEPTION — and `exec` instead
returns the unknown-error sentinel. -/
theorem worker_exec_panic_no_exception_cex :
    (Worker.exec true false [([102], 0)] [102] [104] (.panics .nonErr) true).sent = none
    ∧ (Worker.exec true false [([102], 0)] [102] [104] (.panics .nonErr) true).ret
        = some goErr.errUnknown := by
  decide

/-- C3 (amended): for every job whose timeout-0 user function panics,
the worker runtime recovers the panic and reports it as the error
returned by `exec` (delivered to the worker's `ErrorHandler`), the
unknown-error sentinel `ErrUnknown` when the panicked value is not an
error; no packet (in particular no WORK_EXCEPTION) is written for the
job.  Under a positive timeout the panic is swallowed inside the timer
goroutine and the job instead fails with `ErrTimeOut` via WORK_FAIL. -/
theorem worker_exec_panic_recovered (funcs : List (List Nat × Nat))
    (fn handle : List Nat) (v : panicVal) (running withinTime : Bool) (tmo : Nat)
    (hfn : lookupFunc funcs fn = some tmo) :
    (tmo = 0 →
      Worker.exec running false funcs fn handle (.panics v) withinTime =
        ⟨none, some (recoverErr v)⟩)
    ∧ recoverErr .nonErr = .errUnknown
    ∧ (0 < tmo →
      Worker.exec true false funcs fn handle (.panics v) withinTime =
        ⟨some { dataType := PT_WorkFail, handle := handle, data := [] },
          some .errTimeOut⟩) := by
  refine ⟨?_, rfl, ?_⟩
  · intro h0
    subst h0
    unfold Worker.exec
    rw [hfn]
    simp
  · intro hpos
    have htz : ¬ tmo = 0 := by omega
    unfold Worker.exec
    rw [hfn]
    simp [htz, execTimeout]

/-- C3 (amended) witness: a non-error panic under a timeout-0 function
`[102]` yields no packet and `ErrUnknown`, and the same panic under the
timeout-3 function `[103]` yields WORK_FAIL carrying `ErrTimeOut`. -/
theorem worker_exec_panic_recovered_witness :
    Worker.exec true false [([102], 0)] [102] [104] (.panics .nonErr) true =
      ⟨none, some (recoverErr .nonErr)⟩
    ∧ recoverErr .nonErr = .errUnknown
    ∧ Worker.exec true false [([103], 3)] [103] [104] (.panics .nonErr) true =
        ⟨some { dataType := PT_WorkFail, handle := [104], data := [] },
          some .errTimeOut⟩ :=
  ⟨(worker_exec_panic_recovered [([102], 0)] [102] [104] .nonErr true true 0 rfl).1 rfl,
    (worker_exec_panic_recovered [([102], 0)] [102] [104] .nonErr true true 0 rfl).2.1,
    (worker_exec_panic_recovered [([103], 3)] [103] [104] .nonErr true true 3 rfl).2.2
      (by decide)⟩

/-- C6: a function with timeout 0 is (re-)registered as CAN_DO whose
payload is exactly the function name; one with a positive timeout as
CAN_DO_TIMEOUT whose payload is the name, a NUL, and the timeout as a
4-byte big-endian integer; and on reconnect the whole function table is
re-sent this way, one such packet per table entry. -/
theorem worker_registration_packets (funcs : List (List Nat × Nat))
    (f : List Nat) (t : Nat) (hmem : (f, t) ∈ funcs) (ht32 : t < 2 ^ 32) :
    prepFuncOutpack f 0 = { dataType := PT_CanDo, handle := [], data := f }
    ∧ (0 < t → prepFuncOutpack f t =
        { dataType := PT_CanDoTimeout, handle := [],
          data := f ++ 0 :: putUint32 t })
    ∧ (putUint32 t).length = 4 ∧ beUint32 (putUint32 t) = t
    ∧ reRegisterFuncsForAgent funcs = funcs.map (fun p => prepFuncOutpack p.1 p.2)
    ∧ prepFuncOutpack f t ∈ reRegisterFuncsForAgent funcs := by
  refine ⟨rfl, ?_, rfl, ?_, rfl, ?_⟩
  · intro hpos
    have : ¬ t = 0 := by omega
    simp [prepFuncOutpack, this]
  · simp only [putUint32, beUint32]
    omega
  · exact List.mem_map.2 ⟨(f, t), hmem, rfl⟩

/-- C6 witness: a table with a timeout-0 and a timeout-5 function. -/
theorem worker_registration_packets_witness :
    prepFuncOutpack [103] 0 = { dataType := PT_CanDo, handle := [], data := [103] }
    ∧ (0 < 5 → prepFuncOutpack [103] 5 =
        { dataType := PT_CanDoTimeout, handle := [],
          data := [103] ++ 0 :: putUint32 5 })
    ∧ (putUint32 5).length = 4 ∧ beUint32 (putUint32 5) = 5
    ∧ reRegisterFuncsForAgent [([102], 0), ([103], 5)] =
        [([102], 0), ([103], 5)].map (fun p => prepFuncOutpack p.1 p.2)
    ∧ prepFuncOutpack [103] 5 ∈ reRegisterFuncsForAgent [([102], 0), ([103], 5)] :=
  worker_registration_packets [([102], 0), ([103], 5)] [103] 5 (by decide) (by decide)

/-- C10: `AddFunc` on an already-registered name and `RemoveFunc` on an
unregistered name both return an error, leave the function table (and
the whole worker state) unchanged, and broadcast no packet. -/
theorem worker_addFunc_removeFunc_errors (st : WorkerSt) (f g : List Nat) (t t0 : Nat)
    (hf : lookupFunc st.funcs f = some t0) (hg : lookupFunc st.funcs g = none) :
    Worker.AddFunc st f t = ⟨st, [], some (.funcAlreadyExists f)⟩
    ∧ Worker.RemoveFunc st g = ⟨st, [], some (.funcNotExist g)⟩ := by
  unfold Worker.AddFunc Worker.RemoveFunc
  rw [hf, hg]
  exact ⟨rfl, rfl⟩

/-- C10 witness: duplicate add of `[102]`, removal of unknown `[103]`. -/
theorem worker_addFunc_removeFunc_errors_witness :
    Worker.AddFunc ⟨1, [([102], 0)], true, true, true⟩ [102] 7 =
      ⟨⟨1, [([102], 0)], true, true, true⟩, [], some (.funcAlreadyExists [102])⟩
    ∧ Worker.RemoveFunc ⟨1, [([102], 0)], true, true, true⟩ [103] =
      ⟨⟨1, [([102], 0)], true, true, true⟩, [], some (.funcNotExist [103])⟩ :=
  worker_addFunc_removeFunc_errors ⟨1, [([102], 0)], true, true, true⟩ [102] [103] 7 0
    (by decide) (by decide)

/-- Helper: a 32-bit value written big-endian reads back. -/
theorem beUint32_putUint32 (n : Nat) (rest : List Nat) (h : n < 2 ^ 32) :
    beUint32 (putUint32 n ++ rest) = n := by
  simp only [putUint32, List.cons_append, List.nil_append, beUint32]
  omega

/-- Helper: splitting at the first NUL of `pre ++ 0 :: post` with
NUL-free `pre`. -/
theorem splitOnNull_append (pre post : List Nat) (h : ¬ 0 ∈ pre) :
    splitOnNull (pre ++ 0 :: post) = some (pre, post) := by
  induction pre with
  | nil => simp [splitOnNull]
  | cons b bs ih =>
    rw [List.mem_cons, not_or] at h
    have hb : ¬ b = 0 := fun hb => h.1 hb.symm
    simp [splitOnNull, hb, ih h.2]

/-- Helper: `bytes.SplitN` peels one NUL-free field per NUL while more
than one part remains to produce. -/
theorem bytesSplitN_cons (pre post : List Nat) (n : Nat) (h : ¬ 0 ∈ pre) :
    bytesSplitN (pre ++ 0 :: post) (n + 2) = pre :: bytesSplitN post (n + 1) := by
  rw [bytesSplitN]
  simp [splitOnNull_append pre post h]

/-- Helper: the last part keeps the unsplit remainder. -/
theorem bytesSplitN_one (s : List Nat) : bytesSplitN s 1 = [s] := by
  rw [bytesSplitN]
  simp

/-- Helper: three-way split of a two-NUL payload with NUL-free first
fields. -/
theorem bytesSplitN_three (h f d : List Nat) (hh : ¬ 0 ∈ h) (hf : ¬ 0 ∈ f) :
    bytesSplitN (h ++ 0 :: (f ++ 0 :: d)) 3 = [h, f, d] := by
  rw [show (3 : Nat) = 1 + 2 from rfl, bytesSplitN_cons _ _ _ hh,
    show (1 + 1 : Nat) = 0 + 2 from rfl, bytesSplitN_cons _ _ _ hf, bytesSplitN_one]

/-- Helper: four-way split of a three-NUL payload with NUL-free first
fields. -/
theorem bytesSplitN_four (h f u d : List Nat)
    (hh : ¬ 0 ∈ h) (hf : ¬ 0 ∈ f) (hu : ¬ 0 ∈ u) :
    bytesSplitN (h ++ 0 :: (f ++ 0 :: (u ++ 0 :: d))) 4 = [h, f, u, d] := by
  rw [show (4 : Nat) = 2 + 2 from rfl, bytesSplitN_cons _ _ _ hh,
    show (2 + 1 : Nat) = 1 + 2 from rfl, bytesSplitN_cons _ _ _ hf,
    show (1 + 1 : Nat) = 0 + 2 from rfl, bytesSplitN_cons _ _ _ hu, bytesSplitN_one]

/-- Helper: the header bytes of a built packet. -/
theorem mkPacket_drop8 (ty : Nat) (payload : List Nat) :
    (mkPacket ty payload).drop 8 = putUint32 payload.length ++ payload := rfl

/-- Helper: the type field of a built packet. -/
theorem mkPacket_drop4 (ty : Nat) (payload : List Nat) :
    (mkPacket ty payload).drop 4 =
      putUint32 ty ++ (putUint32 payload.length ++ payload) := by
  simp [mkPacket, List.append_assoc]

/-- Helper: the payload of a built packet. -/
theorem mkPacket_drop12 (ty : Nat) (payload : List Nat) :
    (mkPacket ty payload).drop 12 = payload := rfl

/-- Helper: a built packet is header plus payload long. -/
theorem mkPacket_length (ty : Nat) (payload : List Nat) :
    (mkPacket ty payload).length = payload.length + 12 := by
  simp [mkPacket, putUint32]

/-- Helper: decoding a well-formed built packet of a known type reaches
the per-type payload switch with the exact payload. -/
theorem decodeInPack_mkPacket (ty : Nat) (payload : List Nat)
    (hty1 : PT_CanDo ≤ ty) (hty2 : ty ≤ PT_SubmitJobEpoch)
    (hlen : payload.length < 2 ^ 32) :
    decodeInPack (mkPacket ty payload) =
      ⟨some (
        if ty = PT_JobAssign then
          match bytesSplitN payload 3 with
          | [h, f, d] => { dataType := ty, handle := h, fn := f, data := d }
          | _ => { dataType := ty }
        else if ty = PT_JobAssignUniq then
          match bytesSplitN payload 4 with
          | [h, f, u, d] =>
            { dataType := ty, handle := h, fn := f, uniqueId := u, data := d }
          | _ => { dataType := ty }
        else { dataType := ty, data := payload }),
        payload.length + MinPacketLength, none⟩ := by
  have hty32 : ty < 2 ^ 32 := by
    have : PT_SubmitJobEpoch < 2 ^ 32 := by decide
    omega
  unfold decodeInPack
  rw [mkPacket_drop8, mkPacket_drop4, mkPacket_length,
    beUint32_putUint32 _ _ hlen, beUint32_putUint32 _ _ hty32]
  rw [if_neg (by unfold MinPacketLength; omega),
    if_neg (by unfold MinPacketLength; omega)]
  have hdt : ((mkPacket ty payload).drop MinPacketLength).take payload.length
      = payload := by
    rw [show MinPacketLength = 12 from rfl, mkPacket_drop12, List.take_length]
  rw [hdt, if_neg (by simp)]
  unfold NewPT
  rw [if_pos ⟨hty1, hty2⟩]

/-- C4: decoding a JOB_ASSIGN packet splits its payload at the first two
NULs into handle, function name, and data (which keeps any further NUL);
decoding JOB_ASSIGN_UNIQ splits at the first three NULs into handle,
function name, unique id, and data. -/
theorem decodeInPack_assignment_fields (h f u d : List Nat)
    (hh : ¬ 0 ∈ h) (hf : ¬ 0 ∈ f) (hu : ¬ 0 ∈ u)
    (hlen3 : (h ++ 0 :: (f ++ 0 :: d)).length < 2 ^ 32)
    (hlen4 : (h ++ 0 :: (f ++ 0 :: (u ++ 0 :: d))).length < 2 ^ 32) :
    decodeInPack (mkPacket PT_JobAssign (h ++ 0 :: (f ++ 0 :: d))) =
      ⟨some { dataType := PT_JobAssign, handle := h, fn := f, data := d },
        (h ++ 0 :: (f ++ 0 :: d)).length + MinPacketLength, none⟩
    ∧ decodeInPack (mkPacket PT_JobAssignUniq (h ++ 0 :: (f ++ 0 :: (u ++ 0 :: d)))) =
      ⟨some { dataType := PT_JobAssignUniq, handle := h, fn := f, uniqueId := u,
              data := d },
        (h ++ 0 :: (f ++ 0 :: (u ++ 0 :: d))).length + MinPacketLength, none⟩ := by
  constructor
  · rw [decodeInPack_mkPacket PT_JobAssign _ (by decide) (by decide) hlen3,
      if_pos rfl, bytesSplitN_three h f d hh hf]
  · rw [decodeInPack_mkPacket PT_JobAssignUniq _ (by decide) (by decide) hlen4,
      if_neg (by decide), if_pos rfl, bytesSplitN_four h f u d hh hf hu]

/-- C4 witness: handle `[104]`, function `[102]`, unique id `[117]`, and
data `[1, 0, 2]` containing a NUL of its own. -/
theorem decodeInPack_assignment_fields_witness :
    decodeInPack (mkPacket PT_JobAssign ([104] ++ 0 :: ([102] ++ 0 :: [1, 0, 2]))) =
      ⟨some { dataType := PT_JobAssign, handle := [104], fn := [102], data := [1, 0, 2] },
        ([104] ++ 0 :: ([102] ++ 0 :: [1, 0, 2])).length + MinPacketLength, none⟩
    ∧ decodeInPack
        (mkPacket PT_JobAssignUniq ([104] ++ 0 :: ([102] ++ 0 :: ([117] ++ 0 :: [1, 0, 2])))) =
      ⟨some { dataType := PT_JobAssignUniq, handle := [104], fn := [102],
              uniqueId := [117], data := [1, 0, 2] },
        ([104] ++ 0 :: ([102] ++ 0 :: ([117] ++ 0 :: [1, 0, 2]))).length + MinPacketLength,
        none⟩ :=
  decodeInPack_assignment_fields [104] [102] [117] [1, 0, 2]
    (by decide) (by decide) (by decide) (by decide) (by decide)

/-- C5: on input shorter than 12 bytes plus the declared payload length
(in particular shorter than the 12-byte header), the decoder yields no
packet and reports 0 bytes consumed; and a packet is only ever produced
once at least 12 bytes plus the declared payload length are available. -/
theorem decodeInPack_partial_input (data : List Nat) :
    (data.length < beUint32 (data.drop 8) + MinPacketLength →
      (decodeInPack data).inpack = none ∧ (decodeInPack data).l = 0)
    ∧ ((decodeInPack data).inpack.isSome = true →
      beUint32 (data.drop 8) + MinPacketLength ≤ data.length) := by
  constructor
  · intro hshort
    unfold decodeInPack
    by_cases h1 : data.length < MinPacketLength
    · rw [if_pos h1]
      exact ⟨rfl, rfl⟩
    · rw [if_neg h1, if_pos hshort]
      exact ⟨rfl, rfl⟩
  · intro hsome
    by_cases h2 : data.length < beUint32 (data.drop 8) + MinPacketLength
    · by_cases h1 : data.length < MinPacketLength
      · unfold decodeInPack at hsome
        rw [if_pos h1] at hsome
        simp at hsome
      · unfold decodeInPack at hsome
        rw [if_neg h1, if_pos h2] at hsome
        simp at hsome
    · omega

/-- C5 witness: a 3-byte fragment yields no packet and 0 consumed. -/
theorem decodeInPack_partial_input_witness :
    (decodeInPack [0, 82, 69]).inpack = none ∧ (decodeInPack [0, 82, 69]).l = 0 :=
  (decodeInPack_partial_input [0, 82, 69]).1 (by decide)

/-- Helper: the read loop consumes exactly one stdout line per
non-empty entry of `inputLines`, in order. -/
theorem readOutputLines_eq (ls : List (List Char)) : ∀ out : List (List Char),
    readOutputLines ls out =
      if out.length < ((ls.filter (· ≠ [])).length) then none
      else some (out.take ((ls.filter (· ≠ [])).length)) := by
  induction ls with
  | nil => intro out; simp [readOutputLines]
  | cons l ls ih =>
    intro out
    by_cases hl : l = []
    · simp [readOutputLines, hl, ih]
    · have hcons : (l :: ls).filter (· ≠ []) = l :: ls.filter (· ≠ []) :=
        List.filter_cons_of_pos (by simpa using hl)
      cases out with
      | nil => simp [readOutputLines, hl, hcons]
      | cons o os =>
        rw [hcons]
        simp only [readOutputLines, if_neg hl, ih os, List.length_cons]
        by_cases hlen : os.length < (ls.filter (· ≠ [])).length
        · rw [if_pos hlen, if_pos (by omega)]
          rfl
        · rw [if_neg hlen, if_neg (by omega)]
          simp

/-- C8 counterexample: for the payload `"x\n "` — whose own lines
`"x"` and `" "` are both non-empty — the claim predicts two reads and
the result `"A\nB"`, but the handler trims the whole payload first,
reads a single line and returns `"A"`. -/
theorem persistent_subprocess_cex :
    (processJobWithPersistentSubprocess ['x', '\n', ' '] [['A'], ['B']]).result
      = some ['A']
    ∧ claimPersistentResult ['x', '\n', ' '] [['A'], ['B']] = some ['A', '\n', 'B']
    ∧ some ['A'] ≠ some ['A', '\n', 'B'] := by
  decide

/-- C8 (amended): each persistent-mode invocation writes the payload to
the subprocess's stdin, appends a newline unless the payload already
ends with one, then reads exactly one stdout line per non-empty line of
the whitespace-trimmed payload and returns those lines joined with
newlines. -/
theorem persistent_subprocess_io (data : List Char) (stdout : List (List Char)) :
    (processJobWithPersistentSubprocess data stdout).written
      = data ++ (if goHasSuffix data ['\n'] then [] else ['\n'])
    ∧ (processJobWithPersistentSubprocess data stdout).result
      = claimPersistentResultTrimmed data stdout := by
  refine ⟨rfl, ?_⟩
  unfold processJobWithPersistentSubprocess claimPersistentResultTrimmed
  rw [readOutputLines_eq]
  by_cases hlen : stdout.length
      < ((goSplit (goTrimSpace data) ['\n']).filter (· ≠ [])).length
  · rw [if_pos hlen, if_pos hlen]
    rfl
  · rw [if_neg hlen, if_neg hlen]
    rfl

/-- Helper: the client loop submits exactly the non-empty tokens and
routes each job's outcome to the proper stream, provided no `Do` call
fails. -/
theorem runClientLoop_eq (outs : Nat → jobOutcome) (timeoutStr : List Char)
    (h : ∀ i, outs i ≠ .submitErr) (ts : List (List Char)) : ∀ i : Nat,
    runClientLoop outs timeoutStr ts i =
      ⟨ts.filter (· ≠ []),
        (collectOutputs outs timeoutStr i ((ts.filter (· ≠ [])).length)).1,
        (collectOutputs outs timeoutStr i ((ts.filter (· ≠ [])).length)).2,
        false⟩ := by
  induction ts with
  | nil => intro i; simp [runClientLoop, collectOutputs]
  | cons t ts ih =>
    intro i
    by_cases ht : t = []
    · simp [runClientLoop, ht, ih]
    · have hcons : (t :: ts).filter (· ≠ []) = t :: ts.filter (· ≠ []) :=
        List.filter_cons_of_pos (by simpa using ht)
      rw [hcons]
      cases ho : outs i with
      | submitErr => exact absurd ho (h i)
      | complete d =>
        simp [runClientLoop, ht, ho, ih (i + 1), collectOutputs]
      | fail =>
        simp [runClientLoop, ht, ho, ih (i + 1), collectOutputs]
      | exception d =>
        simp [runClientLoop, ht, ho, ih (i + 1), collectOutputs]
      | timedOut =>
        simp [runClientLoop, ht, ho, ih (i + 1), collectOutputs]

/-- C9: the client splits stdin into tokens by the configured delimiter
(newline by default, via the line scanner), skips every empty token
without submitting, submits exactly one job per non-empty token in
order, and — when every `Do` call succeeds — prints one result line to
stdout per WORK_COMPLETE and one error message to stderr per failed,
excepted or timed-out job. -/
theorem runClient_spec (input delim timeoutStr : List Char)
    (outs : Nat → jobOutcome) (h : ∀ i, outs i ≠ jobOutcome.submitErr) :
    (runClient input delim outs timeoutStr).submitted
      = (scanTokens input delim).filter (· ≠ [])
    ∧ (runClient input delim outs timeoutStr).stdout
      = (collectOutputs outs timeoutStr 0
          (((scanTokens input delim).filter (· ≠ [])).length)).1
    ∧ (runClient input delim outs timeoutStr).stderr
      = (collectOutputs outs timeoutStr 0
          (((scanTokens input delim).filter (· ≠ [])).length)).2
    ∧ (runClient input delim outs timeoutStr).failed = false := by
  unfold runClient
  rw [runClientLoop_eq outs timeoutStr h (scanTokens input delim) 0]
  exact ⟨rfl, rfl, rfl, rfl⟩

/-- C9 witness: stdin `"a\n\nb\n"` with the default delimiter — the
empty middle token is skipped — and every job failing. -/
theorem runClient_spec_witness :
    (runClient ['a', '\n', '\n', 'b', '\n'] ['\n'] (fun _ => jobOutcome.fail)
        ['3', '0', 's']).submitted
      = (scanTokens ['a', '\n', '\n', 'b', '\n'] ['\n']).filter (· ≠ [])
    ∧ (runClient ['a', '\n', '\n', 'b', '\n'] ['\n'] (fun _ => jobOutcome.fail)
        ['3', '0', 's']).stdout
      = (collectOutputs (fun _ => jobOutcome.fail) ['3', '0', 's'] 0
          (((scanTokens ['a', '\n', '\n', 'b', '\n'] ['\n']).filter (· ≠ [])).length)).1
    ∧ (runClient ['a', '\n', '\n', 'b', '\n'] ['\n'] (fun _ => jobOutcome.fail)
        ['3', '0', 's']).stderr
      = (collectOutputs (fun _ => jobOutcome.fail) ['3', '0', 's'] 0
          (((scanTokens ['a', '\n', '\n', 'b', '\n'] ['\n']).filter (· ≠ [])).length)).2
    ∧ (runClient ['a', '\n', '\n', 'b', '\n'] ['\n'] (fun _ => jobOutcome.fail)
        ['3', '0', 's']).failed = false :=
  runClient_spec ['a', '\n', '\n', 'b', '\n'] ['\n'] ['3', '0', 's']
    (fun _ => jobOutcome.fail) (fun _ h => jobOutcome.noConfusion h)

end Gearhulk
